import Mathlib

/-!
Verification of the loltimeanalysis fan-out/fan-in job coordinator spec
against the repository sources.

The frontend state machine is embedded from
`src/frontend/src/hooks/usePlayerHistory.ts` (reducer, stream handler,
429 handling) and `src/frontend/src/types.ts` (State, Action,
WorkflowStatus, MatchHistoryResponse).  The analytic helper is embedded
from `src/frontend/src/utils/AnalyticsUtilities.tsx`.  The backend
(`backend/main.py`, `backend/worker.py`) is not part of the source tree;
where a claim depends on it, the corresponding definition is modelled
from the spec and says so in its doc comment.

JavaScript numbers are embedded as exact integers/rationals (`Int`, `ℚ`);
`Math.round(x)` is embedded as `⌊x + 1/2⌋`, its exact-arithmetic meaning.
-/

namespace LolTime

/-! ## Frontend data model (src/frontend/src/types.ts) -/

inductive Outcome where
  | win
  | loss
deriving DecidableEq

inductive Role where
  | TOP
  | JUNGLE
  | MIDDLE
  | BOTTOM
  | UTILITY
deriving DecidableEq

/-- MatchData from types.ts; `timestamp` is a Unix epoch in milliseconds. -/
structure MatchData where
  match_id : String
  timestamp : Int
  outcome : Outcome
  champion : String
  role : Role
deriving DecidableEq

/-- MatchHistoryResponse from types.ts: `data` is an array of arrays
(chunks of 100). -/
structure MatchHistoryResponse where
  status : String
  data : List (List MatchData)
deriving DecidableEq

structure FormData where
  region : String
  username : String
  tag : String
deriving DecidableEq

inductive FormField where
  | region
  | username
  | tag
deriving DecidableEq

def setField (f : FormData) (field : FormField) (value : String) : FormData :=
  match field with
  | .region => { f with region := value }
  | .username => { f with username := value }
  | .tag => { f with tag := value }

/-- The `status` union of State in types.ts. -/
inductive Status where
  | idle
  | loading
  | updating
  | success
  | error
  | cooldown
deriving DecidableEq

/-- State from types.ts. -/
structure State where
  status : Status
  formData : FormData
  matchHistory : Option MatchHistoryResponse
  progress : Int
  error : Option String
  cooldown : Int
deriving DecidableEq

/-- Action union from types.ts. -/
inductive Action where
  | FORM_CHANGE (field : FormField) (value : String)
  | SEARCH (payload : FormData)
  | UPDATE
  | FETCH_SUCCESS (payload : MatchHistoryResponse)
  | STREAM_PROGRESS (processed total : Int)
  | STREAM_SUCCESS (payload : MatchHistoryResponse)
  | STREAM_FAILURE (payload : String)
  | SET_COOLDOWN (payload : Int)
  | DECREMENT_COOLDOWN
  | PLAYER_NOT_FOUND (payload : String)
  | PLAYER_FOUND_NO_HISTORY
  | RESET
deriving DecidableEq

/-! ## The reducer (src/frontend/src/hooks/usePlayerHistory.ts) -/

/-- initialState from usePlayerHistory.ts. -/
def initialState : State :=
  { status := .idle
    formData := { region := "", username := "", tag := "" }
    matchHistory := none
    progress := 0
    error := none
    cooldown := 0 }

/-- JavaScript Math.round in exact arithmetic: round half toward plus
infinity. -/
def jsRound (q : ℚ) : ℤ := ⌊q + 1 / 2⌋

/-- The reducer from usePlayerHistory.ts, case by case. -/
def reducer (state : State) (action : Action) : State :=
  match action with
  | .FORM_CHANGE field value =>
      { state with formData := setField state.formData field value }
  | .SEARCH payload =>
      { initialState with status := .loading, formData := payload }
  | .UPDATE =>
      { state with status := .updating, error := none, progress := 0, cooldown := 0 }
  | .FETCH_SUCCESS payload =>
      { state with
          status := if state.status = .updating then .updating else .success
          matchHistory := some payload }
  | .STREAM_PROGRESS processed total =>
      let percentage : Int :=
        if total > 0 then jsRound ((processed : ℚ) / (total : ℚ) * 100) else 0
      { state with status := .updating, progress := percentage }
  | .STREAM_SUCCESS payload =>
      { state with
          status := .success
          matchHistory := some payload
          progress := 100
          error := none }
  | .STREAM_FAILURE payload =>
      { state with status := .error, error := some payload, progress := 0 }
  | .SET_COOLDOWN payload =>
      { state with status := .cooldown, cooldown := payload }
  | .DECREMENT_COOLDOWN =>
      let newCooldown := state.cooldown - 1
      { state with
          cooldown := newCooldown
          status := if newCooldown > 0 then .cooldown else .success }
  | .PLAYER_NOT_FOUND payload =>
      { state with status := .error, error := some payload, matchHistory := none }
  | .PLAYER_FOUND_NO_HISTORY =>
      { state with status := .success, matchHistory := none, error := none }
  | .RESET => initialState

/-! ## Adjusted win rate (src/frontend/src/utils/AnalyticsUtilities.tsx) -/

/-- calculateAdjustedWinRate from AnalyticsUtilities.tsx (the Bayesian
averaged win rate), over exact rationals. -/
def calculateAdjustedWinRate (wins totalGames overallWinRate k : ℚ) : ℚ :=
  if totalGames = 0 then overallWinRate * 100
  else
    let numerator := wins + k * overallWinRate
    let denominator := totalGames + k
    numerator / denominator * 100

/-! ## Status stream handling (src/frontend/src/hooks/usePlayerHistory.ts,
createAndListenToEventSource) and payload shapes (src/frontend/src/types.ts,
WorkflowStatus) -/

/-- WorkflowStatus from types.ts: the discriminated union of the four
stream payload shapes. -/
inductive WorkflowStatus where
  | progress (processed total : Int)
  | completed
  | failed (error : String)
  | no_matches
deriving DecidableEq

/-- The `status` string tag of a payload, as carried on the wire. -/
def statusString : WorkflowStatus → String
  | .progress _ _ => "progress"
  | .completed => "completed"
  | .failed _ => "failed"
  | .no_matches => "no_matches"

/-- The terminal-status check from createAndListenToEventSource:
`["completed", "failed", "no_matches"].includes(data.status)`. -/
def isTerminalStatus (data : WorkflowStatus) : Bool :=
  ["completed", "failed", "no_matches"].contains (statusString data)

/-- The default error used when a terminal failure payload carries no
(or an empty, hence falsy) error string. -/
def defaultStreamError : String :=
  "Player not found or they have no recent ranked games."

/-- The eventSource.onmessage handler from createAndListenToEventSource:
returns the list of dispatched actions and whether the stream was closed.
`finalHistory` is the /history response fetched on completion. -/
def onMessage (data : WorkflowStatus) (finalHistory : MatchHistoryResponse) :
    List Action × Bool :=
  let progressActions : List Action :=
    match data with
    | .progress processed total => [Action.STREAM_PROGRESS processed total]
    | _ => []
  if isTerminalStatus data then
    match data with
    | .completed => (progressActions ++ [Action.STREAM_SUCCESS finalHistory], true)
    | .failed e =>
        (progressActions ++
          [Action.STREAM_FAILURE (if e = "" then defaultStreamError else e)], true)
    | _ => (progressActions ++ [Action.STREAM_FAILURE defaultStreamError], true)
  else (progressActions, false)

/-! ## 429 handling in triggerUpdate (src/frontend/src/hooks/usePlayerHistory.ts) -/

/-- The `detail` field of a 429 response body: a string, or an object
that may carry `cooldown_seconds` and `in_progress`. -/
inductive Detail where
  | str (s : String)
  | obj (cooldown_seconds : Option Int) (in_progress : Option Bool)
deriving DecidableEq

/-- The parsed JSON body of a 429 response as triggerUpdate reads it. -/
structure ErrorData where
  cooldown_seconds : Option Int
  detail : Option Detail
deriving DecidableEq

/-- Value of digit characters accumulated the way parseInt does. -/
def digitsToNat (ds : List Char) : Nat :=
  ds.foldl (fun acc c => acc * 10 + (c.toNat - 48)) 0

/-- First maximal run of digits in a character list, as matched by the
regular expression for one or more digits used in triggerUpdate. -/
def firstDigitRun : List Char → Option (List Char)
  | [] => none
  | c :: rest =>
      if c.isDigit then some (c :: rest.takeWhile Char.isDigit)
      else firstDigitRun rest

/-- parseInt applied to the first digit run of a string, if any. -/
def firstNumber (s : String) : Option Nat :=
  (firstDigitRun s.toList).map digitsToNat

/-- The cooldown-seconds extraction of the 429 branch of triggerUpdate:
top-level `cooldown_seconds` number, else `detail.cooldown_seconds`
number, else first digit run of a string `detail`, else 30. -/
def parseCooldown (errorData : ErrorData) : Int :=
  match errorData.cooldown_seconds with
  | some n => n
  | none =>
      match errorData.detail with
      | some (Detail.obj (some n) _) => n
      | some (Detail.str s) =>
          match firstNumber s with
          | some n => (n : Int)
          | none => 30
      | _ => 30

/-- No cooldown duration can be parsed from the 429 response body. -/
def NoParsableCooldown (errorData : ErrorData) : Prop :=
  errorData.cooldown_seconds = none ∧
  (∀ s, errorData.detail = some (Detail.str s) → firstNumber s = none) ∧
  (∀ n ip, errorData.detail ≠ some (Detail.obj (some n) ip))

/-- The state transition the client performs on a 429 response:
`dispatch(SET_COOLDOWN(cooldownTime))` with the parsed duration. -/
def clientOn429 (errorData : ErrorData) (s : State) : State :=
  reducer s (Action.SET_COOLDOWN (parseCooldown errorData))

/-! ## Backend pieces modelled from the spec

The backend sources (`backend/main.py`, `backend/worker.py`,
`backend/riot_api_client.py`) named by `docs/ARCHITECTURE.md` are not in
the source tree; the definitions below are modelled from the spec. -/

/-- CooldownMarker from the spec data model: subject plus expiry. -/
structure CooldownMarker where
  subject_id : String
  expires_at : Int
deriving DecidableEq

/-- Modelled from the spec: the Dispatcher admission check of
`backend/main.py` (missing from src/) — "CooldownMarker active → reject
with remaining-seconds".  Returns the remaining seconds of the rejection
when the marker is unexpired at `now`, and `none` (dispatch may proceed)
otherwise. -/
def cooldownCheck (marker : Option CooldownMarker) (now : Int) : Option Int :=
  match marker with
  | some m => if now < m.expires_at then some (m.expires_at - now) else none
  | none => none

/-- One recorded entry of the PartialResultSet from the spec data model. -/
structure PartialEntry where
  item_id : Nat
  payload : String
deriving DecidableEq

/-- The item_ids already recorded in a PartialResultSet. -/
def recordedIds (results : List PartialEntry) : Finset Nat :=
  (results.map PartialEntry.item_id).toFinset

/-- Modelled from the spec: the reconciliation sweep, which
`docs/ARCHITECTURE.md` lists as unimplemented in the repository ("No
Auto-Resume") and the spec defines as required — when a JobAggregate's
`last_update_at` is older than the staleness threshold at `now`,
re-enqueue the difference between the job's item set and the item_ids
recorded in the PartialResultSet. -/
def reconcileSweep (items : Finset Nat) (results : List PartialEntry)
    (last_update_at now threshold : Int) : Finset Nat :=
  if now - last_update_at > threshold then items \ recordedIds results else ∅

/-- JobAggregate from the spec data model (the Redis hash
`job:{player}:agg` in `docs/ARCHITECTURE.md`): the per-job progress
counter. -/
structure JobAggregate where
  subject_id : String
  total : Nat
  processed : Nat
deriving DecidableEq

/-- A job's in-flight coordination state: its aggregate plus the set of
item_ids not yet accounted for by an increment. -/
structure JobState where
  agg : JobAggregate
  remaining : Finset Nat
deriving DecidableEq

/-- Modelled from the spec: JobAggregate creation by the Dispatcher of
`backend/worker.py` (missing from src/) — `total = len(items)`,
`processed = 0`. -/
def initJob (subject : String) (items : Finset Nat) : JobState :=
  { agg := { subject_id := subject, total := items.card, processed := 0 }
    remaining := items }

/-- Modelled from the spec: one Fetch Worker completing item `i` —
append the result, then atomically increment `processed`.  An item not
(or no longer) pending leaves the state unchanged; `processed` is never
decremented or reset. -/
def stepJob (s : JobState) (i : Nat) : JobState :=
  if i ∈ s.remaining then
    { agg := { s.agg with processed := s.agg.processed + 1 }
      remaining := s.remaining.erase i }
  else s

/-- The job state after a sequence of worker completions. -/
def runJob (subject : String) (items : Finset Nat) (ops : List Nat) : JobState :=
  ops.foldl stepJob (initJob subject items)

/-- Modelled from the spec: the value returned by one worker's atomic
increment of `processed` in `fetch_match_details_task` of
`backend/worker.py` (missing from src/).  The store serializes the `n`
concurrent atomic increments; an arbitrary interleaving is the
serialization order `order`, where `order k` is the worker whose
increment lands k-th.  The k-th serialized increment moves the counter
from k to k+1 and returns the new value, so worker `w` reads back
`(order.symm w) + 1`. -/
def incrementReturn (n : Nat) (order : Equiv.Perm (Fin n)) (w : Fin n) : Nat :=
  (order.symm w).val + 1

/-- The set of workers whose increment returned exactly `total` — by the
comparison-after-increment pattern, exactly these workers invoke the
Aggregator. -/
def triggerSet (n total : Nat) (order : Equiv.Perm (Fin n)) : Finset (Fin n) :=
  Finset.univ.filter (fun w => incrementReturn n order w = total)

/-! ## Aggregation (modelled from the spec, chunk size and sort key from
src/frontend/src/types.ts and docs/ARCHITECTURE.md) -/

/-- The aggregator's ordering key: recency (timestamp), descending. -/
def byRecency (a b : MatchData) : Bool := decide (b.timestamp ≤ a.timestamp)

/-- Partition a list into consecutive pages of 100, as the
`MatchHistoryResponse.data` comment in types.ts documents. -/
def chunkPages (l : List MatchData) : List (List MatchData) :=
  match l with
  | [] => []
  | x :: xs => (x :: xs).take 100 :: chunkPages ((x :: xs).drop 100)
termination_by l.length
decreasing_by simp [List.length_drop]; omega

/-- Modelled from the spec: `aggregate_results_task` of
`backend/worker.py` (missing from src/) — sort all partial results by
timestamp, newest first (docs/ARCHITECTURE.md phase 4), and deliver them
in chunks of 100 as the `MatchHistoryResponse` shape of types.ts
documents. -/
def aggregateResults (results : List MatchData) : MatchHistoryResponse :=
  { status := "completed"
    data := chunkPages (results.mergeSort byRecency) }

/-! ## Helper lemmas -/

/-- Rounded percentages of a fraction in [0, 1] lie in [0, 100]. -/
lemma jsRound_pct_bounds (p t : ℚ) (h0 : 0 ≤ p) (h1 : p ≤ t) (ht : 0 < t) :
    0 ≤ jsRound (p / t * 100) ∧ jsRound (p / t * 100) ≤ 100 := by
  have hq0 : 0 ≤ p / t * 100 := by positivity
  have hq1 : p / t * 100 ≤ 100 := by
    have hdiv : p / t ≤ 1 := (div_le_one ht).mpr h1
    nlinarith
  constructor
  · exact Int.le_floor.mpr (by push_cast; linarith)
  · have : jsRound (p / t * 100) < 101 := by
      rw [jsRound, Int.floor_lt]
      push_cast
      linarith
    omega

/-! ## Theorems for the claims -/

/-- Claim C8: on every STREAM_PROGRESS action the reducer guards the
division by total — progress is round((processed / total) * 100) when
total > 0 and 0 when total ≤ 0, so for payloads with
0 ≤ processed ≤ total the stored progress lies in [0, 100], no division
by zero is reachable, and the status always becomes updating. -/
theorem C8_stream_progress_guard (s : State) (processed total : Int)
    (h0 : 0 ≤ processed) (h1 : processed ≤ total) :
    (reducer s (.STREAM_PROGRESS processed total)).status = Status.updating ∧
    (total ≤ 0 → (reducer s (.STREAM_PROGRESS processed total)).progress = 0) ∧
    (0 < total → (reducer s (.STREAM_PROGRESS processed total)).progress
        = jsRound ((processed : ℚ) / (total : ℚ) * 100)) ∧
    0 ≤ (reducer s (.STREAM_PROGRESS processed total)).progress ∧
    (reducer s (.STREAM_PROGRESS processed total)).progress ≤ 100 := by
  rcases le_or_lt total 0 with hle | hpos
  · have hif : ¬ total > 0 := by omega
    refine ⟨rfl, fun _ => ?_, fun hc => absurd hc hif, ?_, ?_⟩ <;>
      simp [reducer, hif]
  · have hb := jsRound_pct_bounds (processed : ℚ) (total : ℚ)
      (by exact_mod_cast h0) (by exact_mod_cast h1) (by exact_mod_cast hpos)
    refine ⟨rfl, fun hc => by omega, fun _ => ?_, ?_, ?_⟩ <;>
      simp [reducer, hpos, hb.1, hb.2]

/-- Witness for C8 at processed = 1, total = 2. -/
theorem C8_witness :
    (0 : Int) ≤ 1 ∧ (1 : Int) ≤ 2 ∧
    (reducer initialState (.STREAM_PROGRESS 1 2)).status = Status.updating ∧
    0 ≤ (reducer initialState (.STREAM_PROGRESS 1 2)).progress ∧
    (reducer initialState (.STREAM_PROGRESS 1 2)).progress ≤ 100 :=
  ⟨by decide, by decide,
    (C8_stream_progress_guard initialState 1 2 (by decide) (by decide)).1,
    (C8_stream_progress_guard initialState 1 2 (by decide) (by decide)).2.2.2.1,
    (C8_stream_progress_guard initialState 1 2 (by decide) (by decide)).2.2.2.2⟩

/-- Claim C9: DECREMENT_COOLDOWN decrements cooldown by one, sets status
to cooldown when the new cooldown is positive and to success otherwise
(even when matchHistory is none), and leaves formData, matchHistory,
progress and error unchanged. -/
theorem C9_decrement_cooldown (s : State) :
    (reducer s .DECREMENT_COOLDOWN).cooldown = s.cooldown - 1 ∧
    (reducer s .DECREMENT_COOLDOWN).status =
      (if s.cooldown - 1 > 0 then Status.cooldown else Status.success) ∧
    (reducer s .DECREMENT_COOLDOWN).formData = s.formData ∧
    (reducer s .DECREMENT_COOLDOWN).matchHistory = s.matchHistory ∧
    (reducer s .DECREMENT_COOLDOWN).progress = s.progress ∧
    (reducer s .DECREMENT_COOLDOWN).error = s.error := by
  refine ⟨rfl, ?_, rfl, rfl, rfl, rfl⟩
  simp [reducer]

/-- A concrete client state with a terminal status, for C6. -/
def successState : State :=
  { status := .success
    formData := { region := "euw", username := "p", tag := "t" }
    matchHistory := none
    progress := 0
    error := none
    cooldown := 0 }

/-- Counterexample to claim C6 as stated: from the terminal status
success, the action STREAM_PROGRESS — which is none of SEARCH, UPDATE,
RESET — moves the status to updating. -/
theorem C6_counterexample :
    successState.status = Status.success ∧
    (reducer successState (Action.STREAM_PROGRESS 1 2)).status = Status.updating ∧
    Status.updating ≠ Status.success := by
  refine ⟨rfl, rfl, by decide⟩

/-- Claim C6 as amended: the status written by each action is
characterized for every state.  Only FORM_CHANGE (and only it, besides
actions the reducer ignores) is guaranteed to leave a terminal status
unchanged; besides the dispatch actions SEARCH, UPDATE and RESET, the
stream and cooldown actions also overwrite the status
unconditionally. -/
theorem C6_amended_status_characterization (s : State) :
    (∀ f v, (reducer s (.FORM_CHANGE f v)).status = s.status) ∧
    (∀ p, (reducer s (.SEARCH p)).status = Status.loading) ∧
    (reducer s .UPDATE).status = Status.updating ∧
    (reducer s .RESET).status = Status.idle ∧
    (∀ r, (reducer s (.FETCH_SUCCESS r)).status =
        (if s.status = Status.updating then Status.updating else Status.success)) ∧
    (∀ p t, (reducer s (.STREAM_PROGRESS p t)).status = Status.updating) ∧
    (∀ r, (reducer s (.STREAM_SUCCESS r)).status = Status.success) ∧
    (∀ e, (reducer s (.STREAM_FAILURE e)).status = Status.error) ∧
    (∀ c, (reducer s (.SET_COOLDOWN c)).status = Status.cooldown) ∧
    (reducer s .DECREMENT_COOLDOWN).status =
      (if s.cooldown - 1 > 0 then Status.cooldown else Status.success) ∧
    (∀ e, (reducer s (.PLAYER_NOT_FOUND e)).status = Status.error) ∧
    (reducer s .PLAYER_FOUND_NO_HISTORY).status = Status.success := by
  refine ⟨fun f v => rfl, fun p => rfl, rfl, rfl, fun r => rfl, fun p t => rfl,
    fun r => rfl, fun e => rfl, fun c => rfl, ?_, fun e => rfl, rfl⟩
  simp [reducer]

/-- Claim C10: calculateAdjustedWinRate returns overallWinRate * 100 for
zero games; for positive totals with 0 ≤ wins ≤ totalGames,
0 ≤ overallWinRate ≤ 1 and 0 ≤ k, it equals
((wins + k * overallWinRate) / (totalGames + k)) * 100, lies in
[0, 100], is monotone in wins, and for k = 0 coincides with the raw rate
(wins / totalGames) * 100. -/
theorem C10_adjusted_win_rate (wins totalGames overallWinRate k : ℚ)
    (ht : 0 < totalGames) (hw0 : 0 ≤ wins) (hw1 : wins ≤ totalGames)
    (hr0 : 0 ≤ overallWinRate) (hr1 : overallWinRate ≤ 1) (hk : 0 ≤ k) :
    calculateAdjustedWinRate wins 0 overallWinRate k = overallWinRate * 100 ∧
    calculateAdjustedWinRate wins totalGames overallWinRate k
      = (wins + k * overallWinRate) / (totalGames + k) * 100 ∧
    0 ≤ calculateAdjustedWinRate wins totalGames overallWinRate k ∧
    calculateAdjustedWinRate wins totalGames overallWinRate k ≤ 100 ∧
    (∀ wins2, wins ≤ wins2 →
        calculateAdjustedWinRate wins totalGames overallWinRate k ≤
          calculateAdjustedWinRate wins2 totalGames overallWinRate k) ∧
    calculateAdjustedWinRate wins totalGames overallWinRate 0
      = wins / totalGames * 100 := by
  have hne : totalGames ≠ 0 := ne_of_gt ht
  have hd : (0 : ℚ) < totalGames + k := by linarith
  have hkr : k * overallWinRate ≤ k := by nlinarith
  have hnum0 : 0 ≤ wins + k * overallWinRate := by positivity
  refine ⟨by simp [calculateAdjustedWinRate], by simp [calculateAdjustedWinRate, hne],
    ?_, ?_, ?_, ?_⟩
  · simp only [calculateAdjustedWinRate, if_neg hne]
    positivity
  · simp only [calculateAdjustedWinRate, if_neg hne]
    have hfrac : (wins + k * overallWinRate) / (totalGames + k) ≤ 1 :=
      (div_le_one hd).mpr (by linarith)
    nlinarith
  · intro wins2 hle
    simp only [calculateAdjustedWinRate, if_neg hne]
    gcongr
  · simp only [calculateAdjustedWinRate, if_neg hne]
    ring

/-- Witness for C10 at wins = 1, totalGames = 2, overallWinRate = 1/2,
k = 3. -/
theorem C10_witness :
    (0 : ℚ) < 2 ∧ (0 : ℚ) ≤ 1 ∧ (1 : ℚ) ≤ 2 ∧ (0 : ℚ) ≤ 1 / 2 ∧
    (1 : ℚ) / 2 ≤ 1 ∧ (0 : ℚ) ≤ 3 ∧
    0 ≤ calculateAdjustedWinRate 1 2 (1 / 2) 3 ∧
    calculateAdjustedWinRate 1 2 (1 / 2) 3 ≤ 100 ∧
    calculateAdjustedWinRate 1 2 (1 / 2) 0 = 1 / 2 * 100 :=
  ⟨by norm_num, by norm_num, by norm_num, by norm_num, by norm_num, by norm_num,
    (C10_adjusted_win_rate 1 2 (1 / 2) 3 (by norm_num) (by norm_num) (by norm_num)
      (by norm_num) (by norm_num) (by norm_num)).2.2.1,
    (C10_adjusted_win_rate 1 2 (1 / 2) 3 (by norm_num) (by norm_num) (by norm_num)
      (by norm_num) (by norm_num) (by norm_num)).2.2.2.1,
    (C10_adjusted_win_rate 1 2 (1 / 2) 3 (by norm_num) (by norm_num) (by norm_num)
      (by norm_num) (by norm_num) (by norm_num)).2.2.2.2.2⟩

/-- Claim C4: a dispatch request for a subject with an unexpired
CooldownMarker is rejected with the correct remaining duration, never
silently allowed through, and on the client every 429 rejection moves
the reducer into status cooldown carrying the parsed duration, falling
back to 30 seconds exactly when no duration can be parsed from the
response body. -/
theorem C4_cooldown_rejection (m : CooldownMarker) (now : Int)
    (h : now < m.expires_at) (errorData : ErrorData) (s : State) :
    cooldownCheck (some m) now = some (m.expires_at - now) ∧
    0 < m.expires_at - now ∧
    (clientOn429 errorData s).status = Status.cooldown ∧
    (clientOn429 errorData s).cooldown = parseCooldown errorData ∧
    (∀ n, errorData.cooldown_seconds = some n → parseCooldown errorData = n) ∧
    (NoParsableCooldown errorData → parseCooldown errorData = 30) := by
  refine ⟨by simp [cooldownCheck, h], by omega, rfl, rfl, ?_, ?_⟩
  · intro n hn
    simp [parseCooldown, hn]
  · rintro ⟨h1, h2, h3⟩
    rcases hdet : errorData.detail with _ | d
    · simp [parseCooldown, h1, hdet]
    · rcases d with str | ⟨cs, ip⟩
      · have hnone : firstNumber str = none := h2 str hdet
        simp [parseCooldown, h1, hdet, hnone]
      · rcases cs with _ | n
        · simp [parseCooldown, h1, hdet]
        · exact absurd hdet (h3 n ip)

/-- Witness for C4 at a marker expiring at 100 checked at time 70, with
an empty 429 body. -/
theorem C4_witness :
    (70 : Int) < 100 ∧
    cooldownCheck (some { subject_id := "p", expires_at := 100 }) 70 = some 30 ∧
    (clientOn429 { cooldown_seconds := none, detail := none } initialState).status
      = Status.cooldown ∧
    parseCooldown { cooldown_seconds := none, detail := none } = 30 :=
  ⟨by decide,
    (C4_cooldown_rejection { subject_id := "p", expires_at := 100 } 70 (by decide)
      { cooldown_seconds := none, detail := none } initialState).1,
    (C4_cooldown_rejection { subject_id := "p", expires_at := 100 } 70 (by decide)
      { cooldown_seconds := none, detail := none } initialState).2.2.1,
    (C4_cooldown_rejection { subject_id := "p", expires_at := 100 } 70 (by decide)
      { cooldown_seconds := none, detail := none } initialState).2.2.2.2.2
      ⟨rfl, fun s hs => by simp at hs, fun n ip hs => by simp at hs⟩⟩

/-- Claim C5: every stream message has exactly one of the four payload
shapes, the client closes the stream exactly on the statuses completed,
failed and no_matches, and treats exactly progress as a non-terminal
progress update. -/
theorem C5_payload_shapes_and_terminality :
    (∀ w : WorkflowStatus,
        (∃ p t, w = .progress p t) ∨ w = .completed ∨
        (∃ e, w = .failed e) ∨ w = .no_matches) ∧
    (∀ w fh, ((onMessage w fh).2 = true ↔ isTerminalStatus w = true)) ∧
    (∀ w, (isTerminalStatus w = true ↔
        (statusString w = "completed" ∨ statusString w = "failed" ∨
          statusString w = "no_matches"))) ∧
    (∀ w fh, ((∃ p t, Action.STREAM_PROGRESS p t ∈ (onMessage w fh).1) ↔
        statusString w = "progress")) := by
  refine ⟨fun w => ?_, fun w fh => ?_, fun w => ?_, fun w fh => ?_⟩
  · cases w with
    | progress p t => exact Or.inl ⟨p, t, rfl⟩
    | completed => exact Or.inr (Or.inl rfl)
    | failed e => exact Or.inr (Or.inr (Or.inl ⟨e, rfl⟩))
    | no_matches => exact Or.inr (Or.inr (Or.inr rfl))
  · cases w <;> simp [onMessage, isTerminalStatus, statusString]
  · cases w <;> simp [isTerminalStatus, statusString]
  · cases w <;> simp [onMessage, isTerminalStatus, statusString]

/-- Claim C1: under every serialization of the N concurrent atomic
increments, the returned values are pairwise distinct, strictly
increasing along the serialization order, at most one worker observes
the value total, and when total = N exactly one does — so the Aggregator
is triggered at most once per job. -/
theorem C1_aggregator_exactly_once (n : Nat) (order : Equiv.Perm (Fin n)) :
    Function.Injective (incrementReturn n order) ∧
    (∀ k1 k2 : Fin n, k1 < k2 →
        incrementReturn n order (order k1) < incrementReturn n order (order k2)) ∧
    (∀ total, (triggerSet n total order).card ≤ 1) ∧
    (0 < n → (triggerSet n n order).card = 1) := by
  have hinj : Function.Injective (incrementReturn n order) := by
    intro a b hab
    simp only [incrementReturn] at hab
    exact order.symm.injective (Fin.ext (by omega))
  refine ⟨hinj, ?_, ?_, ?_⟩
  · intro k1 k2 hk
    simp only [incrementReturn, Equiv.symm_apply_apply]
    omega
  · intro total
    rw [Finset.card_le_one]
    intro a ha b hb
    rw [triggerSet, Finset.mem_filter] at ha hb
    exact hinj (ha.2.trans hb.2.symm)
  · intro hn
    have hlt : n - 1 < n := by omega
    rw [Finset.card_eq_one]
    refine ⟨order ⟨n - 1, hlt⟩, ?_⟩
    ext w
    simp only [triggerSet, Finset.mem_filter, Finset.mem_univ, true_and,
      Finset.mem_singleton, incrementReturn]
    constructor
    · intro hw
      have hsymm : order.symm w = ⟨n - 1, hlt⟩ := Fin.ext (by simp; omega)
      exact ((Equiv.symm_apply_eq order).mp hsymm)
    · intro hw
      subst hw
      simp [Equiv.symm_apply_apply]
      omega

/-- Witness for C1 with three workers serialized in identity order. -/
theorem C1_witness :
    0 < 3 ∧ (triggerSet 3 3 (Equiv.refl (Fin 3))).card = 1 ∧
    (0 : Fin 3) < 1 ∧
    incrementReturn 3 (Equiv.refl (Fin 3)) ((Equiv.refl (Fin 3)) 0) <
      incrementReturn 3 (Equiv.refl (Fin 3)) ((Equiv.refl (Fin 3)) 1) :=
  ⟨by decide, (C1_aggregator_exactly_once 3 (Equiv.refl (Fin 3))).2.2.2 (by decide),
    by decide, (C1_aggregator_exactly_once 3 (Equiv.refl (Fin 3))).2.1 0 1 (by decide)⟩

/-- A worker step never changes total or subject and never lowers the
counter; it preserves the accounting invariant. -/
lemma stepJob_facts (s : JobState) (i : Nat) :
    (stepJob s i).agg.total = s.agg.total ∧
    (stepJob s i).agg.subject_id = s.agg.subject_id ∧
    s.agg.processed ≤ (stepJob s i).agg.processed ∧
    (s.agg.processed + s.remaining.card = s.agg.total →
      (stepJob s i).agg.processed + (stepJob s i).remaining.card
        = (stepJob s i).agg.total) := by
  rw [stepJob]
  split
  · rename_i hmem
    refine ⟨rfl, rfl, by simp, ?_⟩
    intro hinvar
    simp only
    rw [Finset.card_erase_of_mem hmem]
    have hpos : 0 < s.remaining.card := Finset.card_pos.mpr ⟨i, hmem⟩
    omega
  · exact ⟨rfl, rfl, le_refl _, fun h => h⟩

/-- The accounting invariant and the total are preserved by any fold of
worker steps, and the counter never decreases along it. -/
lemma foldl_stepJob_facts (ops : List Nat) (s : JobState) :
    (ops.foldl stepJob s).agg.total = s.agg.total ∧
    s.agg.processed ≤ (ops.foldl stepJob s).agg.processed ∧
    (s.agg.processed + s.remaining.card = s.agg.total →
      (ops.foldl stepJob s).agg.processed +
        (ops.foldl stepJob s).remaining.card = (ops.foldl stepJob s).agg.total) := by
  induction ops generalizing s with
  | nil => exact ⟨rfl, le_refl _, fun h => h⟩
  | cons i rest ih =>
    simp only [List.foldl_cons]
    have hstep := stepJob_facts s i
    have hrest := ih (stepJob s i)
    exact ⟨hrest.1.trans hstep.1, hstep.2.2.1.trans hrest.2.1,
      fun h => hrest.2.2 (hstep.2.2.2 h)⟩

/-- Claim C2: along any sequence of worker completions,
0 ≤ processed ≤ total holds for the JobAggregate, total stays the item
count, and processed is non-decreasing — it is only ever incremented,
never decremented or reset. -/
theorem C2_processed_bounded_monotone (subject : String) (items : Finset Nat)
    (ops : List Nat) (i : Nat) :
    0 ≤ (runJob subject items ops).agg.processed ∧
    (runJob subject items ops).agg.processed ≤ (runJob subject items ops).agg.total ∧
    (runJob subject items ops).agg.total = items.card ∧
    (runJob subject items ops).agg.processed ≤
      (runJob subject items (ops ++ [i])).agg.processed := by
  have hfacts := foldl_stepJob_facts ops (initJob subject items)
  have hinit : (initJob subject items).agg.processed +
      (initJob subject items).remaining.card = (initJob subject items).agg.total := by
    simp [initJob]
  simp only [runJob]
  refine ⟨Nat.zero_le _, ?_, ?_, ?_⟩
  · have := hfacts.2.2 hinit
    omega
  · exact hfacts.1
  · rw [List.foldl_append]
    exact (stepJob_facts (ops.foldl stepJob (initJob subject items)) i).2.2.1

/-- Claim C3: for a JobAggregate stale past the threshold, the
reconciliation sweep re-enqueues exactly the difference between the
job's item set and the item_ids recorded in the PartialResultSet — only
the gap, never an already-recorded item — and re-enqueues nothing for a
fresh aggregate. -/
theorem C3_reconciliation_requeues_gap (items : Finset Nat)
    (results : List PartialEntry) (last_update_at now threshold : Int)
    (h : now - last_update_at > threshold) :
    reconcileSweep items results last_update_at now threshold
      = items \ recordedIds results ∧
    (∀ i, i ∈ reconcileSweep items results last_update_at now threshold ↔
        (i ∈ items ∧ i ∉ recordedIds results)) ∧
    (∀ e, e ∈ results →
        e.item_id ∉ reconcileSweep items results last_update_at now threshold) ∧
    (∀ lu n2, ¬ (n2 - lu > threshold) →
        reconcileSweep items results lu n2 threshold = ∅) := by
  have heq : reconcileSweep items results last_update_at now threshold
      = items \ recordedIds results := by
    rw [reconcileSweep, if_pos h]
  refine ⟨heq, ?_, ?_, ?_⟩
  · intro i
    rw [heq, Finset.mem_sdiff]
  · intro e he
    rw [heq, Finset.mem_sdiff]
    rintro ⟨-, habs⟩
    exact habs (List.mem_toFinset.mpr (List.mem_map.mpr ⟨e, he, rfl⟩))
  · intro lu n2 h2
    rw [reconcileSweep, if_neg h2]

/-- Witness for C3: items 1..3, item 1 already recorded, aggregate last
updated at 0 checked at time 100 with threshold 10. -/
theorem C3_witness :
    ((100 : Int) - 0 > 10) ∧
    reconcileSweep {1, 2, 3} [{ item_id := 1, payload := "a" }] 0 100 10
      = {1, 2, 3} \ recordedIds [{ item_id := 1, payload := "a" }] ∧
    (1 ∉ reconcileSweep {1, 2, 3} [{ item_id := 1, payload := "a" }] 0 100 10) :=
  ⟨by decide,
    (C3_reconciliation_requeues_gap {1, 2, 3} [{ item_id := 1, payload := "a" }]
      0 100 10 (by decide)).1,
    (C3_reconciliation_requeues_gap {1, 2, 3} [{ item_id := 1, payload := "a" }]
      0 100 10 (by decide)).2.2.1 { item_id := 1, payload := "a" } (by decide)⟩

/-- chunkPages of the empty list is empty. -/
lemma chunkPages_nil : chunkPages [] = [] := by
  rw [chunkPages]

/-- chunkPages of a nonempty list is nonempty. -/
lemma chunkPages_ne_nil (l : List MatchData) (h : l ≠ []) : chunkPages l ≠ [] := by
  cases l with
  | nil => exact absurd rfl h
  | cons x xs => rw [chunkPages]; exact List.cons_ne_nil _ _

/-- Flattening the pages recovers the input list. -/
lemma flatten_chunkPages (l : List MatchData) : (chunkPages l).flatten = l := by
  induction l using chunkPages.induct with
  | case1 => rw [chunkPages_nil]; rfl
  | case2 x xs ih =>
      rw [chunkPages, List.flatten_cons, ih, List.take_append_drop]

/-- Every page is nonempty and holds at most 100 entries. -/
lemma mem_chunkPages (l : List MatchData) :
    ∀ c ∈ chunkPages l, c.length ≤ 100 ∧ c ≠ [] := by
  induction l using chunkPages.induct with
  | case1 => rw [chunkPages_nil]; intro c hc; simp at hc
  | case2 x xs ih =>
      rw [chunkPages]
      intro c hc
      rcases List.mem_cons.mp hc with heq | hmem
      · subst heq
        refine ⟨by simp [List.length_take], ?_⟩
        rw [Ne, List.take_eq_nil_iff]
        simp
      · exact ih c hmem

/-- Every page except possibly the last holds exactly 100 entries. -/
lemma dropLast_chunkPages (l : List MatchData) :
    ∀ c ∈ (chunkPages l).dropLast, c.length = 100 := by
  induction l using chunkPages.induct with
  | case1 => rw [chunkPages_nil]; intro c hc; simp at hc
  | case2 x xs ih =>
      rw [chunkPages]
      by_cases hrest : (x :: xs).drop 100 = []
      · rw [hrest, chunkPages_nil]
        intro c hc
        simp at hc
      · intro c hc
        rw [List.dropLast_cons_of_ne_nil (chunkPages_ne_nil _ hrest)] at hc
        rcases List.mem_cons.mp hc with heq | hmem
        · subst heq
          have hlen : 100 < (x :: xs).length := by
            by_contra hle
            exact hrest (List.drop_eq_nil_iff.mpr (by omega))
          rw [List.length_take]
          omega
        · exact ih c hmem

/-- The recency order used by the aggregator is transitive. -/
lemma byRecency_trans (a b c : MatchData) (h1 : byRecency a b = true)
    (h2 : byRecency b c = true) : byRecency a c = true := by
  simp only [byRecency, decide_eq_true_eq] at h1 h2 ⊢
  exact h2.trans h1

/-- The recency order used by the aggregator is total. -/
lemma byRecency_total (a b : MatchData) : (byRecency a b || byRecency b a) = true := by
  simp only [byRecency, Bool.or_eq_true, decide_eq_true_eq]
  exact (le_total b.timestamp a.timestamp)

/-- Claim C7: when all total = T items of a job are fetched, the cached
artifact delivers exactly T payloads — a permutation of the fetched
items — ordered by recency descending and partitioned into pages of
100, each nonempty page holding at most 100 entries and every page but
the last exactly 100. -/
theorem C7_artifact_roundtrip (results : List MatchData) (T : Nat)
    (h : results.length = T) :
    (aggregateResults results).data.flatten.length = T ∧
    (aggregateResults results).data.flatten.Perm results ∧
    List.Sorted (fun a b => b.timestamp ≤ a.timestamp)
      (aggregateResults results).data.flatten ∧
    (∀ c ∈ (aggregateResults results).data, c.length ≤ 100 ∧ c ≠ []) ∧
    (∀ c ∈ (aggregateResults results).data.dropLast, c.length = 100) := by
  have hflat : (aggregateResults results).data.flatten
      = results.mergeSort byRecency := by
    rw [aggregateResults]
    exact flatten_chunkPages _
  refine ⟨?_, ?_, ?_, ?_, ?_⟩
  · rw [hflat, List.length_mergeSort, h]
  · rw [hflat]
    exact List.mergeSort_perm results byRecency
  · rw [hflat]
    have hsorted := List.sorted_mergeSort byRecency_trans byRecency_total results
    exact hsorted.imp (fun hab => by
      simpa only [byRecency, decide_eq_true_eq] using hab)
  · exact mem_chunkPages _
  · exact dropLast_chunkPages _

/-- Witness for C7 with two concrete matches and T = 2. -/
theorem C7_witness :
    ([{ match_id := "a", timestamp := 5, outcome := Outcome.win,
          champion := "X", role := Role.TOP },
        { match_id := "b", timestamp := 9, outcome := Outcome.loss,
          champion := "Y", role := Role.MIDDLE }] : List MatchData).length = 2 ∧
    (aggregateResults
        [{ match_id := "a", timestamp := 5, outcome := Outcome.win,
            champion := "X", role := Role.TOP },
          { match_id := "b", timestamp := 9, outcome := Outcome.loss,
            champion := "Y", role := Role.MIDDLE }]).data.flatten.length = 2 :=
  ⟨rfl,
    (C7_artifact_roundtrip
      [{ match_id := "a", timestamp := 5, outcome := Outcome.win,
          champion := "X", role := Role.TOP },
        { match_id := "b", timestamp := 9, outcome := Outcome.loss,
          champion := "Y", role := Role.MIDDLE }] 2 rfl).1⟩

end LolTime
